import Mathlib

/-!
Verification development for the shawk (transtracer) repository.

The Go sources are shallowly embedded: pure parsing and flow-building
functions become Lean functions over explicit inputs; filesystem and
kernel interactions (reading `/proc`, the netlink socket, DNS) are
represented by explicit environment values carrying the result each
system call would return.  Machine integers are modelled as `Nat`/`Int`
with explicit truncation where the Go code truncates.
-/

namespace Shawk

/-! ## Small string helpers shared by the parsing code -/

/-- List of characters of a `String` literal: `(strData s) = s.data`. -/
def strData (s : String) : List Char := s.data

/-- Embedding of Go `strings.Split(s, sep)` for a one-character separator,
working on the character list.  Always returns at least one piece. -/
def splitOnChar (sep : Char) : List Char → List (List Char)
  | [] => [[]]
  | c :: cs =>
    let r := splitOnChar sep cs
    if c = sep then [] :: r
    else
      match r with
      | [] => [[c]]
      | h :: t => (c :: h) :: t

/-- Whitespace test used by Go `strings.Fields`; procfs lines are ASCII so
only the ASCII space classes of `unicode.IsSpace` are relevant. -/
def isSpaceChar (c : Char) : Bool :=
  c = ' ' || c = '\t' || c = '\n' || c = '\r' ||
  c = Char.ofNat 11 || c = Char.ofNat 12

/-- Helper for `fields`: accumulates the current (reversed) field. -/
def fieldsAux : List Char → List Char → List (List Char)
  | [], cur => if cur.isEmpty then [] else [cur.reverse]
  | c :: cs, cur =>
    if isSpaceChar c then
      if cur.isEmpty then fieldsAux cs []
      else cur.reverse :: fieldsAux cs []
    else fieldsAux cs (c :: cur)

/-- Embedding of Go `strings.Fields`: split around runs of whitespace,
producing no empty fields. -/
def fields (cs : List Char) : List (List Char) := fieldsAux cs []

/-- Test whether `pat` occurs at the head of `cs`. -/
def listStarts : List Char → List Char → Bool
  | [], _ => true
  | _ :: _, [] => false
  | p :: ps, c :: cs => p = c && listStarts ps cs

/-- Embedding of Go `strings.Index(s, pat) != -1`: substring occurrence. -/
def containsSub (cs pat : List Char) : Bool :=
  match cs with
  | [] => listStarts pat []
  | _ :: rest => listStarts pat cs || containsSub rest pat

/-- Embedding of the Go helper `contains(strs []string, s string) bool`
from probe/netlink/connections.go. -/
def contains (strs : List String) (s : String) : Bool :=
  match strs with
  | [] => false
  | str :: rest => str = s || contains rest s

/-! ## Hex and decimal parsing -/

/-- Value of one hexadecimal digit, accepting both cases, as Go
`strconv.ParseInt`/`encoding/hex` do. -/
def hexVal (c : Char) : Option Nat :=
  if '0' ≤ c ∧ c ≤ '9' then some (c.toNat - 48)
  else if 'a' ≤ c ∧ c ≤ 'f' then some (c.toNat - 87)
  else if 'A' ≤ c ∧ c ≤ 'F' then some (c.toNat - 55)
  else none

/-- Accumulating hexadecimal scan over a digit list. -/
def parseHexCore : List Char → Nat → Option Nat
  | [], acc => some acc
  | c :: cs, acc =>
    match hexVal c with
    | some d => parseHexCore cs (acc * 16 + d)
    | none => none

/-- Embedding of Go `strconv.ParseInt("0x"++s, 0, 64)`: a hexadecimal
number that must be nonempty, all hex digits, and fit in a signed 64-bit
integer.  (Go numeric-literal underscores are not modelled; no claim
touches them.) -/
def parseHexInt64 (cs : List Char) : Option Nat :=
  if cs.isEmpty then none
  else
    match parseHexCore cs 0 with
    | some v => if v < 2 ^ 63 then some v else none
    | none => none

/-- Embedding of Go `strconv.ParseUint(s, 16, 8)` as used on the procfs
state field: returns the parsed value together with a success flag.  On a
syntax error Go returns `(0, err)`; on a range error it returns the
clamped maximum `(255, err)`. -/
def parseUint8Hex (cs : List Char) : Nat × Bool :=
  if cs.isEmpty then (0, false)
  else
    match parseHexCore cs 0 with
    | none => (0, false)
    | some v => if v > 255 then (255, false) else (v, true)

/-- Embedding of Go `encoding/hex.DecodeString`: pairs of hex digits to
bytes, failing on odd length or a non-hex digit. -/
def hexDecode : List Char → Option (List Nat)
  | [] => some []
  | [_] => none
  | c1 :: c2 :: rest =>
    match hexVal c1, hexVal c2, hexDecode rest with
    | some h, some l, some bs => some ((h * 16 + l) :: bs)
    | _, _, _ => none

/-- Decimal digit scan for Go `strconv.Atoi`. -/
def parseDecCore : List Char → Nat → Option Nat
  | [], acc => some acc
  | c :: cs, acc =>
    if '0' ≤ c ∧ c ≤ '9' then parseDecCore cs (acc * 10 + (c.toNat - 48))
    else none

/-- Embedding of Go `strconv.Atoi`: optional sign, then a nonempty run of
decimal digits.  (The 64-bit range check is immaterial for `/proc` entry
names and is not modelled.) -/
def atoi (s : String) : Option Int :=
  match s.data with
  | [] => none
  | '+' :: rest => if rest.isEmpty then none else (parseDecCore rest 0).map Int.ofNat
  | '-' :: rest =>
    if rest.isEmpty then none else (parseDecCore rest 0).map (fun n => -(Int.ofNat n))
  | l => (parseDecCore l 0).map Int.ofNat

/-! ## Addresses -/

/-- Rendering of a byte list as Go `net.IP.String()` renders it: four
bytes give the dotted quad.  The 16-byte IPv6 rendering is not modelled
(no address decoded from the IPv4 `/proc/net/tcp` claims has 16 bytes);
other lengths give Go's `"?"`-prefixed fallback, abbreviated to `"?"`. -/
def ipBytesString : List Nat → String
  | [a, b, c, d] =>
    Nat.repr a ++ "." ++ Nat.repr b ++ "." ++ Nat.repr c ++ "." ++ Nat.repr d
  | _ => "?"

/-- Endpoint address as in netutil: an IP string plus a port
(`uint32` in Go, modelled as `Nat` with explicit truncation). -/
structure Addr where
  IP : String
  Port : Nat
deriving DecidableEq, Repr

/-- Embedding of netutil `decodeAddress` (create_scheme sources): split on
`:`, parse the port as `ParseInt("0x"+t[1], 0, 64)` truncated to
`uint32`, hex-decode the address bytes, reverse them (little-endian) and
render with `net.IP.String()`. -/
def decodeAddressC (src : List Char) : Option Addr :=
  match splitOnChar ':' src with
  | [addr, portcs] =>
    match parseHexInt64 portcs with
    | none => none
    | some port =>
      match hexDecode addr with
      | none => none
      | some decoded =>
        some { IP := ipBytesString decoded.reverse, Port := port % 2 ^ 32 }
  | _ => none

/-- String-level wrapper of `decodeAddressC`. -/
def decodeAddress (src : String) : Option Addr := decodeAddressC src.data

/-- Uppercase hexadecimal digit, as printed in `/proc/net/tcp`. -/
def hexChar (n : Nat) : Char :=
  if n < 10 then Char.ofNat (48 + n) else Char.ofNat (55 + n)

/-- Two-digit uppercase hex rendering of a byte. -/
def hexByte (n : Nat) : List Char := [hexChar (n / 16), hexChar (n % 16)]

/-- Written from the spec's words (§4.1/§8.6): the `/proc/net/tcp`
encoding of the endpoint `a.b.c.d:p` — little-endian hex IPv4 on the left
of the colon, big-endian hex port on the right. -/
def encodeAddr (a b c d p : Nat) : String :=
  List.asString
    (hexByte d ++ hexByte c ++ hexByte b ++ hexByte a ++
      ':' :: (hexByte (p / 256) ++ hexByte (p % 256)))

/-- Canonical dotted-quad rendering of four octets, as the claim's
"dotted-quad string a.b.c.d". -/
def dottedQuad (a b c d : Nat) : String :=
  Nat.repr a ++ "." ++ Nat.repr b ++ "." ++ Nat.repr c ++ "." ++ Nat.repr d

/-! ## TCP states (gosigar `linux.TCPState` values) -/

/-- TCP_ESTABLISHED. -/
def TCP_ESTABLISHED : Nat := 1

/-- TCP_SYN_SENT. -/
def TCP_SYN_SENT : Nat := 2

/-- TCP_SYN_RECV. -/
def TCP_SYN_RECV : Nat := 3

/-- TCP_TIME_WAIT. -/
def TCP_TIME_WAIT : Nat := 6

/-- TCP_LISTEN. -/
def TCP_LISTEN : Nat := 10

/-! ## Kernel connection records -/

/-- IPv4 address as four octets.  The netlink request asks for `AF_INET`
TCP sockets only, so netlink connections carry 4-byte addresses. -/
structure IPv4 where
  a : Nat
  b : Nat
  c : Nat
  d : Nat
deriving DecidableEq, Repr

/-- Rendering of an `IPv4` as Go `net.IP.String()` renders a 4-byte IP. -/
def IPv4.str (ip : IPv4) : String := dottedQuad ip.a ip.b ip.c ip.d

/-- Embedding of the gosigar `linux.InetDiagMsg` fields the probe reads:
state, source/destination endpoint and socket inode. -/
structure InetDiagMsg where
  State : Nat
  SrcIPv : IPv4
  DstIPv : IPv4
  SrcPortv : Nat
  DstPortv : Nat
  Inode : Nat
deriving DecidableEq, Repr

/-- Embedding of netutil `ConnectionStat` (procfs path). -/
structure ConnectionStat where
  Laddr : Addr
  Raddr : Addr
  Status : Nat
deriving DecidableEq, Repr

/-! ## Host flow data model -/

/-- Flow direction; probe `FlowActive` / `FlowPassive`. -/
inductive Direction where
  | active
  | passive
deriving DecidableEq, Repr

/-- Probe `AddrPort`: an address string plus a port string ("many" is the
aggregation sentinel). -/
structure AddrPort where
  addr : String
  port : String
deriving DecidableEq, Repr

/-- Probe `Process`: process-group id and name. -/
structure ProcessInfo where
  Name : String
  Pgid : Int
deriving DecidableEq, Repr

/-- Probe `HostFlow`: one aggregated directional flow.  Field names are
lower-cased from the Go `Direction`/`Local`/`Peer`/`Process`/`Connections`
(`Direction` and `local` are taken in Lean). -/
structure HostFlow where
  direction : Direction
  loc : AddrPort
  peer : AddrPort
  process : Option ProcessInfo
  connections : Nat
deriving DecidableEq, Repr

/-- Aggregation key of a flow (direction, local endpoint, peer endpoint),
per spec §4.3. -/
def HostFlow.key (hf : HostFlow) : Shawk.Direction × AddrPort × AddrPort :=
  (hf.direction, hf.loc, hf.peer)

/-- Host flow collection, in insertion order. -/
abbrev HostFlows := List HostFlow

/-- Modelled from the spec: probe `HostFlows.Insert` (the probe package is
not under src/).  Spec §4.3: "Insert into a set keyed by (direction,
local, peer).  On duplicate, increment connections."  A new flow starts
at one connection. -/
def HostFlows.insert (fl : HostFlows) (hf : HostFlow) : HostFlows :=
  if fl.any (fun g => decide (g.key = hf.key)) then
    fl.map (fun g =>
      if g.key = hf.key then { g with connections := g.connections + 1 } else g)
  else fl ++ [{ hf with connections := 1 }]

/-- Process attribution stripped from a flow (for comparing the netlink
and procfs outputs). -/
def HostFlow.strip (hf : HostFlow) : HostFlow := { hf with process := none }

/-- Process attribution stripped from a whole collection. -/
def stripProcesses (fl : HostFlows) : HostFlows := fl.map HostFlow.strip

/-! ## Process attribution data -/

/-- Embedding of netutil `UserEnt`. -/
structure UserEnt where
  inode : Nat
  fd : Int
  pid : Int
  pname : String
  ppid : Int
  pgrp : Int
deriving DecidableEq, Repr

/-- Netutil `UserEnts`: Go `map[uint32]*UserEnt`, modelled as an
association list with override-on-insert semantics. -/
abbrev UserEnts := List (Nat × UserEnt)

/-- Go map lookup `userEnts[ino]` (nil pointer when absent). -/
def UserEnts.lookup (m : UserEnts) (ino : Nat) : Option UserEnt :=
  (m.find? (fun p => decide (p.1 = ino))).map (fun p => p.2)

/-- Go map write `m[ino] = ent`: later writes win. -/
def UserEnts.write (m : UserEnts) (ino : Nat) (ent : UserEnt) : UserEnts :=
  (ino, ent) :: m.filter (fun p => decide (p.1 ≠ ino))

/-- Netutil `UserEntByLport`: Go `map[string]*UserEnt` built from the
listening connections; the stored pointer may itself be nil. -/
abbrev UserEntByLport := List (String × Option UserEnt)

/-- Go map lookup `lportEnt[lport]` (nil when absent or stored nil). -/
def UserEntByLport.lookup (m : UserEntByLport) (lport : String) : Option UserEnt :=
  match m.find? (fun p => decide (p.1 = lport)) with
  | some p => p.2
  | none => none

/-- Go map write `lportEnt[sport] = v`. -/
def UserEntByLport.write (m : UserEntByLport) (lport : String) (v : Option UserEnt) :
    UserEntByLport :=
  (lport, v) :: m.filter (fun p => decide (p.1 ≠ lport))

/-! ## Listening-port derivation -/

/-- Test of netutil's listening bind addresses: `0.0.0.0`, `127.0.0.1` or
`::`. -/
def listenAddrOk (sip : String) : Bool :=
  sip = "0.0.0.0" || sip = "127.0.0.1" || sip = "::"

/-- Embedding of netutil `NetlinkFilterByLocalListeningPorts`: keep the
LISTEN connections bound to a wildcard or loopback address.  (The Go
function also returns an error value that is always nil.) -/
def NetlinkFilterByLocalListeningPorts (conns : List InetDiagMsg) : List InetDiagMsg :=
  conns.filter (fun conn =>
    decide (conn.State = TCP_LISTEN) && listenAddrOk conn.SrcIPv.str)

/-- Embedding of netutil `FilterByLocalListeningPorts` (procfs path):
the port strings of the LISTEN connections bound to a wildcard or
loopback address.  (The Go error value is always nil.) -/
def FilterByLocalListeningPorts (conns : List ConnectionStat) : List String :=
  (conns.filter (fun conn =>
    decide (conn.Status = TCP_LISTEN) && listenAddrOk conn.Laddr.IP)).map
    (fun conn => Nat.repr conn.Laddr.Port)

/-! ## Flow builder -/

/-- Probe filter constant `FilterAll`. -/
def FilterAll : String := "all"

/-- Probe filter constant `FilterPublic`. -/
def FilterPublic : String := "public"

/-- Probe filter constant `FilterPrivate`. -/
def FilterPrivate : String := "private"

/-- Embedding of `GetHostFlowsOption` (probe/netlink/connections.go). -/
structure GetHostFlowsOption where
  Numeric : Bool
  Processes : Bool
  Filter : String
deriving DecidableEq, Repr

/-- Modelled from the spec: netutil `IsPrivateIP` is not under src/.
Spec §4.3: "Private" is RFC1918 / loopback / link-local. -/
def IsPrivateIP (ip : IPv4) : Bool :=
  ip.a = 10 || (ip.a = 172 && decide (16 ≤ ip.b) && decide (ip.b ≤ 31)) ||
  (ip.a = 192 && ip.b = 168) || ip.a = 127 || (ip.a = 169 && ip.b = 254)

/-- Modelled from the spec: probe `HostFlow.SetLookupedName` is not under
src/.  Spec §4.3: if numeric mode is off, reverse-resolve the addresses
into hostnames, best-effort — a failed lookup leaves the address as-is.
The resolver is the DNS environment. -/
def setLookupedName (resolver : String → Option String) (hf : HostFlow) : HostFlow :=
  { hf with
    loc := { hf.loc with addr := (resolver hf.loc.addr).getD hf.loc.addr }
    peer := { hf.peer with addr := (resolver hf.peer.addr).getD hf.peer.addr } }

/-- State switch of both flow-builder loops: `LISTEN`, `SYN_SENT` and
`SYN_RECV` connections are skipped. -/
def stateSkipped (st : Nat) : Bool :=
  st = TCP_LISTEN || st = TCP_SYN_SENT || st = TCP_SYN_RECV

/-- Filter switch of the netlink flow-builder loop: `public` skips
private destinations, `private` skips public ones, anything else (incl.
`all`) keeps the connection. -/
def filterSkipped (filter : String) (dst : IPv4) : Bool :=
  if filter = FilterPublic then IsPrivateIP dst
  else if filter = FilterPrivate then !IsPrivateIP dst
  else false

/-- Body of the netlink flow-builder loop for one connection (lines
66–127 of probe/netlink/connections.go). -/
def netlinkStep (userEnts : Option UserEnts) (lportEnt : UserEntByLport)
    (ports : List String) (filter : String) (flows : HostFlows)
    (conn : InetDiagMsg) : HostFlows :=
  if stateSkipped conn.State then flows
  else if filterSkipped filter conn.DstIPv then flows
  else
    let ent0 : Option UserEnt :=
      match userEnts with
      | some ue => if conn.Inode ≠ 0 then ue.lookup conn.Inode else none
      | none => none
    let lport := Nat.repr conn.SrcPortv
    let rport := Nat.repr conn.DstPortv
    if contains ports lport then
      let ent := match ent0 with
        | none => lportEnt.lookup lport
        | some e => some e
      flows.insert
        { direction := .passive
          loc := { addr := conn.SrcIPv.str, port := lport }
          peer := { addr := conn.DstIPv.str, port := "many" }
          process := ent.map (fun e => { Name := e.pname, Pgid := e.pgrp })
          connections := 0 }
    else
      flows.insert
        { direction := .active
          loc := { addr := conn.SrcIPv.str, port := "many" }
          peer := { addr := conn.DstIPv.str, port := rport }
          process := ent0.map (fun e => { Name := e.pname, Pgid := e.pgrp })
          connections := 0 }

/-- Listening-port strings used by the netlink builder: the source ports
of `NetlinkFilterByLocalListeningPorts`, printed with `Sprintf("%d")`. -/
def netlinkPorts (conns : List InetDiagMsg) : List String :=
  (NetlinkFilterByLocalListeningPorts conns).map (fun lconn => Nat.repr lconn.SrcPortv)

/-- The `lportEnt` map built alongside `ports`: for each listening
connection, the user entry keyed by its inode (written only when process
attribution is on). -/
def netlinkLportEnt (userEnts : Option UserEnts) (conns : List InetDiagMsg) :
    UserEntByLport :=
  match userEnts with
  | none => []
  | some ue =>
    (NetlinkFilterByLocalListeningPorts conns).foldl
      (fun m lconn => m.write (Nat.repr lconn.SrcPortv) (ue.lookup lconn.Inode)) []

/-- Pure core of `GetHostFlowsByNetlink`: everything after the userEnts
and connection fetches — port derivation, classification loop and the
optional reverse-name pass. -/
def netlinkBuildFlows (userEnts : Option UserEnts) (conns : List InetDiagMsg)
    (opt : GetHostFlowsOption) (resolver : String → Option String) : HostFlows :=
  let ports := netlinkPorts conns
  let lportEnt := netlinkLportEnt userEnts conns
  let flows := conns.foldl (netlinkStep userEnts lportEnt ports opt.Filter) []
  if opt.Numeric then flows else flows.map (setLookupedName resolver)

/-- Body of the procfs flow-builder loop for one connection (lines
148–173 of probe/netlink/connections.go). -/
def procfsStep (ports : List String) (flows : HostFlows) (conn : ConnectionStat) :
    HostFlows :=
  if stateSkipped conn.Status then flows
  else
    let lport := Nat.repr conn.Laddr.Port
    let rport := Nat.repr conn.Raddr.Port
    if contains ports lport then
      flows.insert
        { direction := .passive
          loc := { addr := conn.Laddr.IP, port := lport }
          peer := { addr := conn.Raddr.IP, port := "many" }
          process := none
          connections := 0 }
    else
      flows.insert
        { direction := .active
          loc := { addr := conn.Laddr.IP, port := "many" }
          peer := { addr := conn.Raddr.IP, port := rport }
          process := none
          connections := 0 }

/-- Pure core of `GetHostFlowsByProcfs`: port derivation plus the
classification loop. -/
def procfsBuildFlows (conns : List ConnectionStat) : HostFlows :=
  let ports := FilterByLocalListeningPorts conns
  conns.foldl (procfsStep ports) []

/-- View of a netlink connection as the procfs record the same kernel
connection would produce (same endpoint rendering, no inode). -/
def InetDiagMsg.toConnectionStat (conn : InetDiagMsg) : ConnectionStat :=
  { Laddr := { IP := conn.SrcIPv.str, Port := conn.SrcPortv }
    Raddr := { IP := conn.DstIPv.str, Port := conn.DstPortv }
    Status := conn.State }

/-! ## Errors -/

/-- POSIX error numbers distinguished by the probe. -/
inductive Errno where
  | eacces
  | enoent
  | eio
deriving DecidableEq, Repr

/-- Go error values flowing out of the probe, by concrete type:
`netlink` is netutil's `*NetlinkError` (matched by `xerrors.As`), `fs` is
a wrapped `*os.PathError`-style failure, `parse` a scan failure.  The
`xerrors.Errorf("...: %w", e)` wrappers preserve the matched type, so a
chain is modelled by its innermost sentinel. -/
inductive GoErr where
  | netlink (msg : String)
  | fs (e : Errno) (msg : String)
  | parse (msg : String)
deriving DecidableEq, Repr

/-- Embedding of `xerrors.As(err, &netlinkErr)` for the
`*netutil.NetlinkError` target. -/
def isNetlinkError : GoErr → Bool
  | .netlink _ => true
  | _ => false

/-- Embedding of netutil `NetlinkConnections`: the raw
`linux.NetlinkInetDiag` outcome is the argument; any raw failure is
wrapped as `NetlinkError`. -/
def NetlinkConnections (raw : Except String (List InetDiagMsg)) :
    Except GoErr (List InetDiagMsg) :=
  match raw with
  | .error _ => .error (.netlink "NetlinkInetDiag")
  | .ok msgs => .ok msgs

/-! ## Process attributor (netutil BuildUserEntries) -/

/-- Embedding of netutil `procStat` (the parsed `/proc/<pid>/stat`
fields). -/
structure ProcStat where
  Pname : String
  Ppid : Int
  Pgrp : Int
deriving DecidableEq, Repr

instance {ε α : Type} [DecidableEq ε] [DecidableEq α] : DecidableEq (Except ε α) :=
  fun a b =>
  match a, b with
  | .error e, .error f =>
    if h : e = f then .isTrue (by rw [h]) else .isFalse (by simp [h])
  | .ok x, .ok y =>
    if h : x = y then .isTrue (by rw [h]) else .isFalse (by simp [h])
  | .error _, .ok _ => .isFalse (by simp)
  | .ok _, .error _ => .isFalse (by simp)

/-- One entry of `/proc/<pid>/fd/` as the walk observes it: the entry
name and the result `os.Readlink` would return for it. -/
structure FdEntry where
  name : String
  linkRes : Except Errno String
deriving DecidableEq, Repr

/-- One entry of the `/proc` root as the walk observes it: its name,
whether it is a directory, the result of `os.Stat` on its `fd`
subdirectory (whether that is a directory), the result of reading the
`fd` directory, and the result `parseProcStat` would produce for this
PID (the open-and-scan of `/proc/<pid>/stat` is abstracted into its
outcome; no claim examines the stat-line scan itself). -/
structure PidEntry where
  name : String
  isDir : Bool
  fdStatIsDir : Except Errno Bool
  fdEntries : Except Errno (List FdEntry)
  statRes : Except Errno ProcStat
deriving DecidableEq, Repr

/-- Leading decimal-digit run of a character list. -/
def takeDigits : List Char → List Char × List Char
  | [] => ([], [])
  | c :: cs =>
    if '0' ≤ c ∧ c ≤ '9' then
      let p := takeDigits cs
      (c :: p.1, p.2)
    else ([], c :: cs)

/-- Embedding of `fmt.Sscanf(lnk, "socket:[%d]", &ino)` into a `uint32`:
the literal must match at the start, then a digit run, then `]`; overflow
of `uint32` is a scan error.  Trailing input after `]` is ignored, as
`Sscanf` ignores unconsumed input. -/
def sscanSocketInode (cs : List Char) : Option Nat :=
  if listStarts (strData "socket:[") cs then
    let rest := cs.drop 8
    let p := takeDigits rest
    if p.1.isEmpty then none
    else
      match p.2 with
      | ']' :: _ =>
        match parseDecCore p.1 0 with
        | some v => if v < 2 ^ 32 then some v else none
        | none => none
      | _ => none
  else none

/-- Embedding of netutil `parseSocketInode`: a link without the
`socket:[` substring yields inode 0 with no error; otherwise the link is
scanned and a scan failure is an error. -/
def parseSocketInode (lnk : String) : Except GoErr Nat :=
  if containsSub lnk.data (strData "socket:[") = false then .ok 0
  else
    match sscanSocketInode lnk.data with
    | some ino => .ok ino
    | none => .error (.parse "socket inode scan")

/-- Inner loop of `BuildUserEntries` over the fd entries of one PID,
threading the lazily-read proc stat and the accumulated map. -/
def buildFds (statRes : Except Errno ProcStat) (pid : Int) :
    List FdEntry → Option ProcStat → UserEnts → Except GoErr (Option ProcStat × UserEnts)
  | [], stat?, acc => .ok (stat?, acc)
  | e :: rest, stat?, acc =>
    match atoi e.name with
    | none => buildFds statRes pid rest stat? acc
    | some fd =>
      match e.linkRes with
      | .error errno =>
        if errno = .enoent then buildFds statRes pid rest stat? acc
        else .error (.fs errno "readlink")
      | .ok lnk =>
        match parseSocketInode lnk with
        | .error err => .error err
        | .ok ino =>
          if ino = 0 then buildFds statRes pid rest stat? acc
          else
            match stat? with
            | some st =>
              buildFds statRes pid rest (some st)
                (acc.write ino ⟨ino, fd, pid, st.Pname, st.Ppid, st.Pgrp⟩)
            | none =>
              match statRes with
              | .error errno => .error (.fs errno "parseProcStat")
              | .ok st =>
                buildFds statRes pid rest (some st)
                  (acc.write ino ⟨ino, fd, pid, st.Pname, st.Ppid, st.Pgrp⟩)

/-- Outer loop of `BuildUserEntries` over the `/proc` root entries. -/
def buildPids (selfPid : Int) : List PidEntry → UserEnts → Except GoErr UserEnts
  | [], acc => .ok acc
  | d :: rest, acc =>
    if !d.isDir then buildPids selfPid rest acc
    else
      match atoi d.name with
      | none => buildPids selfPid rest acc
      | some pid =>
        if pid = selfPid then buildPids selfPid rest acc
        else
          match d.fdStatIsDir with
          | .error errno => .error (.fs errno "stat fdDir")
          | .ok b =>
            if !b then buildPids selfPid rest acc
            else
              match d.fdEntries with
              | .error errno =>
                if errno = .eacces then buildPids selfPid rest acc
                else .error (.fs errno "readdir fdDir")
              | .ok ents =>
                match buildFds d.statRes pid ents none acc with
                | .error err => .error err
                | .ok p => buildPids selfPid rest p.2

/-- Embedding of netutil `BuildUserEntries`: walk the observed `/proc`
root (`rootRes` is the result of `ioutil.ReadDir`). -/
def BuildUserEntries (selfPid : Int) (rootRes : Except Errno (List PidEntry)) :
    Except GoErr UserEnts :=
  match rootRes with
  | .error errno => .error (.fs errno "readdir root")
  | .ok dirs => buildPids selfPid dirs []

/-! ## Procfs connection parsing -/

/-- Parsing of one non-header `/proc/net/tcp` line (body of the
`ProcfsConnections` loop): fewer than ten fields skips the line; an
unparseable state field is only logged (the zero/clamped `ParseUint`
result is kept); an undecodable address skips the line. -/
def parseProcLine (line : List Char) : Option ConnectionStat :=
  let l := fields line
  if l.length < 10 then none
  else
    let status := (parseUint8Hex (l.getD 3 [])).1
    match decodeAddressC (l.getD 1 []) with
    | none => none
    | some la =>
      match decodeAddressC (l.getD 2 []) with
      | none => none
      | some ra => some { Laddr := la, Raddr := ra, Status := status }

/-- Body of netutil `ProcfsConnections` after the file read: split into
lines, skip the header, parse each line, keep the successes in order. -/
def parseProcNetTcp (body : String) : List ConnectionStat :=
  ((splitOnChar '\n' body.data).drop 1).filterMap parseProcLine

/-- Embedding of netutil `ProcfsConnections`: `bodyRes` is the result of
`ioutil.ReadFile("/proc/net/tcp")`; only the file read can fail. -/
def ProcfsConnections (bodyRes : Except Errno String) :
    Except GoErr (List ConnectionStat) :=
  match bodyRes with
  | .error errno => .error (.fs errno "read /proc/net/tcp")
  | .ok body => .ok (parseProcNetTcp body)

/-! ## Top-level probe dispatch -/

/-- The system environment one probe tick observes: the probe's own PID,
the `/proc` walk, the raw netlink reply, the `/proc/net/tcp` content and
the DNS resolver. -/
structure ProbeEnv where
  selfPid : Int
  procRoot : Except Errno (List PidEntry)
  rawNetlink : Except String (List InetDiagMsg)
  tcpFile : Except Errno String
  resolver : String → Option String

/-- Embedding of `GetHostFlowsByNetlink` (probe/netlink/connections.go):
optional `BuildUserEntries`, then `NetlinkConnections`, then the pure
flow build.  (`NetlinkFilterByLocalListeningPorts` never returns a
non-nil error, so its error check cannot fire.) -/
def GetHostFlowsByNetlink (env : ProbeEnv) (opt : GetHostFlowsOption) :
    Except GoErr HostFlows :=
  match (if opt.Processes then (BuildUserEntries env.selfPid env.procRoot).map some
         else .ok none) with
  | .error e => .error e
  | .ok userEnts =>
    match NetlinkConnections env.rawNetlink with
    | .error e => .error e
    | .ok conns => .ok (netlinkBuildFlows userEnts conns opt env.resolver)

/-- Embedding of `GetHostFlowsByProcfs`: `ProcfsConnections`, then the
pure flow build.  (`FilterByLocalListeningPorts` never returns a non-nil
error.) -/
def GetHostFlowsByProcfs (env : ProbeEnv) : Except GoErr HostFlows :=
  match ProcfsConnections env.tcpFile with
  | .error e => .error e
  | .ok conns => .ok (procfsBuildFlows conns)

/-- Embedding of `GetHostFlows`: try netlink; on an error matched by
`xerrors.As(err, &netlinkErr)` fall back to procfs, otherwise propagate
the error unchanged. -/
def GetHostFlows (env : ProbeEnv) (opt : GetHostFlowsOption) :
    Except GoErr HostFlows :=
  match GetHostFlowsByNetlink env opt with
  | .error err => if isNetlinkError err then GetHostFlowsByProcfs env else .error err
  | .ok flows => .ok flows

/-! ## Upsert engine (db package) -/

/-- Database statement executions observed by the sqlmock test: each
node upsert records its arguments and the node id the query returned;
each flow upsert records its arguments. -/
inductive DBEvent where
  | upsertNode (ipv4 : String) (port : Nat) (pgid : Int) (pname : String) (nodeId : Nat)
  | upsertFlow (direction : String) (sourceNodeId destNodeId : Nat) (connections : Nat)
deriving DecidableEq, Repr

/-- Abstract state of the `nodes` relation: rows keyed by the logical key
`(ipv4, port, pgid, pname)`, plus the next surrogate id the sequence
would allocate. -/
structure DBState where
  nodes : List ((String × Nat × Int × String) × Nat)
  nextId : Nat
deriving DecidableEq, Repr

/-- Modelled from the spec (§4.4 step 3c): the *upsert-node* statement —
`INSERT ... ON CONFLICT (ipv4,port,pgid,pname) DO UPDATE ... RETURNING
node_id` — returns the existing row's id on conflict, otherwise inserts a
fresh row with the next serial id. -/
def DBState.upsertNode (st : DBState) (k : String × Nat × Int × String) :
    Nat × DBState :=
  match st.nodes.find? (fun p => decide (p.1 = k)) with
  | some p => (p.2, st)
  | none => (st.nextId, ⟨st.nodes ++ [(k, st.nextId)], st.nextId + 1⟩)

/-- Numeric port of a flow port string: the `"many"` sentinel maps to 0,
a numeral to its value (spec §4.4 step 3a). -/
def portNumOf (port : String) : Nat :=
  if port = "many" then 0 else (parseDecCore port.data 0).getD 0

/-- Direction enum literal stored in the `flows` relation. -/
def dirString : Direction → String
  | .active => "active"
  | .passive => "passive"

/-- Modelled from the spec: `db.InsertOrUpdateHostFlows` is not under
src/ (only its sqlmock test is).  Spec §4.4 steps 3a–3d for one flow:
resolve the local node from `(local.addr, numeric(local.port),
process.pgid|0, process.name|"")`, resolve the peer node from
`(peer.addr, numeric(peer.port), 0, "")`, then upsert the flow row with
`src=local, dst=peer` for an active flow and `src=peer, dst=local` for a
passive one. -/
def insertFlowStep (st : DBState) (f : HostFlow) : List DBEvent × DBState :=
  let laddr := f.loc.addr
  let lport := portNumOf f.loc.port
  let lpgid : Int := match f.process with | some p => p.Pgid | none => 0
  let lpname : String := match f.process with | some p => p.Name | none => ""
  let r1 := st.upsertNode (laddr, lport, lpgid, lpname)
  let r2 := r1.2.upsertNode (f.peer.addr, portNumOf f.peer.port, 0, "")
  let src := match f.direction with | .active => r1.1 | .passive => r2.1
  let dst := match f.direction with | .active => r2.1 | .passive => r1.1
  ([DBEvent.upsertNode laddr lport lpgid lpname r1.1,
    DBEvent.upsertNode f.peer.addr (portNumOf f.peer.port) 0 "" r2.1,
    DBEvent.upsertFlow (dirString f.direction) src dst f.connections], r2.2)

/-- Statement trace of the per-tick upsert loop from a given state. -/
def runFlows (st : DBState) : List HostFlow → List DBEvent
  | [] => []
  | f :: rest =>
    let p := insertFlowStep st f
    p.1 ++ runFlows p.2 rest

/-- Modelled from the spec: the whole `InsertOrUpdateHostFlows` call, as
the sequence of statement executions inside its transaction, starting
from an empty `nodes` relation whose serial starts at 1 (as in the
sqlmock test). -/
def InsertOrUpdateHostFlows (flows : List HostFlow) : List DBEvent :=
  runFlows ⟨[], 1⟩ flows

/-! ## Claim-side definitions (written from the spec's words, for
comparison with the source embeddings) -/

/-- Kernel connection endpoint data as the classification rule sees it. -/
structure ConnTuple where
  state : Nat
  lip : String
  lport : String
  rip : String
  rport : String
deriving DecidableEq, Repr

/-- Classification rule exactly as the spec states it (§4.3): if the
local port is in `P` the flow is passive with peer port `"many"`,
otherwise active with local port `"many"`. -/
def specClassify (P : List String) (t : ConnTuple) : HostFlow :=
  if contains P t.lport then
    { direction := .passive
      loc := { addr := t.lip, port := t.lport }
      peer := { addr := t.rip, port := "many" }
      process := none
      connections := 0 }
  else
    { direction := .active
      loc := { addr := t.lip, port := "many" }
      peer := { addr := t.rip, port := t.rport }
      process := none
      connections := 0 }

/-- One step of flow building as the claim states it: drop `LISTEN`,
`SYN_SENT` and `SYN_RECV`, classify everything else, aggregate. -/
def specStep (P : List String) (fl : HostFlows) (t : ConnTuple) : HostFlows :=
  if stateSkipped t.state then fl else fl.insert (specClassify P t)

/-- Flow building exactly as the claim states it, over a whole
connection list. -/
def specFlowBuild (P : List String) (ts : List ConnTuple) : HostFlows :=
  ts.foldl (specStep P) []

/-- Endpoint view of a netlink connection. -/
def InetDiagMsg.toTuple (c : InetDiagMsg) : ConnTuple :=
  { state := c.State, lip := c.SrcIPv.str, lport := Nat.repr c.SrcPortv
    rip := c.DstIPv.str, rport := Nat.repr c.DstPortv }

/-- Endpoint view of a procfs connection. -/
def ConnectionStat.toTuple (c : ConnectionStat) : ConnTuple :=
  { state := c.Status, lip := c.Laddr.IP, lport := Nat.repr c.Laddr.Port
    rip := c.Raddr.IP, rport := Nat.repr c.Raddr.Port }

/-- Claim-side local node arguments (C2): `(local.addr,
numeric(local.port), process.pgid|0, process.name|"")`. -/
def localNodeArgs (f : HostFlow) : String × Nat × Int × String :=
  (f.loc.addr, portNumOf f.loc.port,
   (f.process.map (fun p => p.Pgid)).getD 0,
   (f.process.map (fun p => p.Name)).getD "")

/-- Claim-side peer node arguments (C2): `(peer.addr,
numeric(peer.port), 0, "")`. -/
def peerNodeArgs (f : HostFlow) : String × Nat × Int × String :=
  (f.peer.addr, portNumOf f.peer.port, 0, "")

/-- Shape predicate of C4: exactly one side of the flow carries the
`"many"` sentinel. -/
def xorMany (hf : HostFlow) : Prop :=
  (hf.loc.port = "many") ↔ hf.peer.port ≠ "many"

/-! # Theorems -/

/-! ## Decimal rendering facts -/

theorem digitChar_isDigit : ∀ m < 10, (Nat.digitChar m).isDigit = true := by decide

theorem toDigitsCore_digits (fuel : Nat) :
    ∀ (n : Nat) (acc : List Char), (∀ c ∈ acc, c.isDigit = true) →
      ∀ c ∈ Nat.toDigitsCore 10 fuel n acc, c.isDigit = true := by
  induction fuel with
  | zero =>
    intro n acc hacc c hc
    simpa [Nat.toDigitsCore] using hacc c (by simpa [Nat.toDigitsCore] using hc)
  | succ fuel ih =>
    intro n acc hacc c hc
    have hdig : ∀ c ∈ (Nat.digitChar (n % 10) :: acc), c.isDigit = true := by
      intro c hcm
      rcases List.mem_cons.mp hcm with h | h
      · subst h; exact digitChar_isDigit _ (Nat.mod_lt _ (by omega))
      · exact hacc c h
    rw [Nat.toDigitsCore] at hc
    by_cases hz : n / 10 = 0
    · simp only [hz, if_pos rfl] at hc
      exact hdig c hc
    · simp only [if_neg hz] at hc
      exact ih (n / 10) _ hdig c hc

theorem repr_all_digits (n : Nat) : ∀ c ∈ (Nat.repr n).data, c.isDigit = true := by
  intro c hc
  have : (Nat.repr n).data = Nat.toDigitsCore 10 (n + 1) n [] := rfl
  rw [this] at hc
  exact toDigitsCore_digits (n + 1) n [] (by intro c hc; cases hc) c hc

theorem repr_ne_many (n : Nat) : Nat.repr n ≠ "many" := by
  intro h
  have hm : 'm' ∈ (Nat.repr n).data := by
    rw [h]
    simp [String.data]
  have := repr_all_digits n 'm' hm
  simp [Char.isDigit] at this

/-! ## Splitting lemmas -/

theorem splitOnChar_no_sep (sep : Char) :
    ∀ ys : List Char, sep ∉ ys → splitOnChar sep ys = [ys] := by
  intro ys
  induction ys with
  | nil => intro _; rfl
  | cons c cs ih =>
    intro h
    have hc : ¬c = sep := fun hh => h (hh ▸ List.mem_cons_self c cs)
    have hcs := ih (fun hm => h (List.mem_cons_of_mem _ hm))
    simp [splitOnChar, hc, hcs]

theorem splitOnChar_append (sep : Char) (xs ys : List Char)
    (hx : sep ∉ xs) (hy : sep ∉ ys) :
    splitOnChar sep (xs ++ sep :: ys) = [xs, ys] := by
  induction xs with
  | nil =>
    simp [splitOnChar, splitOnChar_no_sep sep ys hy]
  | cons x xs ih =>
    have hxne : ¬x = sep := fun hh =>
      hx (hh ▸ List.mem_cons_self x xs)
    have ihx := ih (fun hm => hx (List.mem_cons_of_mem _ hm))
    simp [splitOnChar, hxne, ihx]

/-! ## Hex lemmas -/

theorem hexVal_hexChar : ∀ k < 16, hexVal (hexChar k) = some k := by decide

theorem hexChar_ne_colon : ∀ k < 16, hexChar k ≠ ':' := by decide

theorem colon_not_mem_hexByte (n : Nat) (hn : n < 256) : ':' ∉ hexByte n := by
  intro hm
  rw [hexByte] at hm
  rcases List.mem_cons.mp hm with h | hm2
  · exact hexChar_ne_colon (n / 16) (by omega) h.symm
  · rcases List.mem_cons.mp hm2 with h | hm3
    · exact hexChar_ne_colon (n % 16) (by omega) h.symm
    · cases hm3

theorem parseHexCore_hexByte (n : Nat) (hn : n < 256) (rest : List Char) (acc : Nat) :
    parseHexCore (hexByte n ++ rest) acc = parseHexCore rest (acc * 256 + n) := by
  have h1 : hexVal (hexChar (n / 16)) = some (n / 16) := hexVal_hexChar _ (by omega)
  have h2 : hexVal (hexChar (n % 16)) = some (n % 16) := hexVal_hexChar _ (by omega)
  simp only [hexByte, List.cons_append, List.nil_append, parseHexCore, h1, h2]
  congr 1
  omega

theorem hexDecode_hexByte (n : Nat) (hn : n < 256) (rest : List Char) :
    hexDecode (hexByte n ++ rest) = (hexDecode rest).map (fun bs => n :: bs) := by
  have h1 : hexVal (hexChar (n / 16)) = some (n / 16) := hexVal_hexChar _ (by omega)
  have h2 : hexVal (hexChar (n % 16)) = some (n % 16) := hexVal_hexChar _ (by omega)
  have heq : hexByte n ++ rest = hexChar (n / 16) :: hexChar (n % 16) :: rest := rfl
  rw [heq]
  simp only [hexDecode, h1, h2]
  cases hrest : hexDecode rest with
  | none => simp
  | some bs =>
    have hn16 : n / 16 * 16 + n % 16 = n := by omega
    simp [hn16]

/-- C5: decoding the `/proc/net/tcp` encoding of an IPv4 endpoint
recovers exactly the dotted-quad string and the port:
`decode(encode(a.b.c.d:p)) = (a.b.c.d, p)`. -/
theorem decodeAddress_encodeAddr (a b c d p : Nat)
    (ha : a < 256) (hb : b < 256) (hc : c < 256) (hd : d < 256) (hp : p < 65536) :
    decodeAddress (encodeAddr a b c d p) =
      some { IP := dottedQuad a b c d, Port := p } := by
  have hdata : (encodeAddr a b c d p).data =
      (hexByte d ++ hexByte c ++ hexByte b ++ hexByte a) ++
        ':' :: (hexByte (p / 256) ++ hexByte (p % 256)) := by
    simp [encodeAddr, List.asString]
  have hip : ':' ∉ hexByte d ++ hexByte c ++ hexByte b ++ hexByte a := by
    simp only [List.mem_append]
    rintro (((h | h) | h) | h)
    · exact colon_not_mem_hexByte d hd h
    · exact colon_not_mem_hexByte c hc h
    · exact colon_not_mem_hexByte b hb h
    · exact colon_not_mem_hexByte a ha h
  have hport : ':' ∉ hexByte (p / 256) ++ hexByte (p % 256) := by
    simp only [List.mem_append]
    rintro (h | h)
    · exact colon_not_mem_hexByte _ (by omega) h
    · exact colon_not_mem_hexByte _ (by omega) h
  have hsplit := splitOnChar_append ':' _ _ hip hport
  have hparse : parseHexInt64 (hexByte (p / 256) ++ hexByte (p % 256)) = some p := by
    have hne : (hexByte (p / 256) ++ hexByte (p % 256)).isEmpty = false := by
      simp [hexByte]
    rw [parseHexInt64]
    simp only [hne, Bool.false_eq_true, if_false]
    rw [show (hexByte (p / 256) ++ hexByte (p % 256)) =
          hexByte (p / 256) ++ (hexByte (p % 256) ++ []) by simp]
    rw [parseHexCore_hexByte _ (by omega), parseHexCore_hexByte _ (by omega)]
    simp only [parseHexCore]
    have hval : (0 * 256 + p / 256) * 256 + p % 256 = p := by omega
    rw [hval]
    simp only [if_pos (show p < 2 ^ 63 by
      have : (2 : Nat) ^ 63 = 9223372036854775808 := by norm_num
      omega)]
  have hdec : hexDecode (hexByte d ++ hexByte c ++ hexByte b ++ hexByte a) =
      some [d, c, b, a] := by
    rw [show hexByte d ++ hexByte c ++ hexByte b ++ hexByte a =
          hexByte d ++ (hexByte c ++ (hexByte b ++ (hexByte a ++ []))) by simp]
    rw [hexDecode_hexByte _ hd, hexDecode_hexByte _ hc, hexDecode_hexByte _ hb,
      hexDecode_hexByte _ ha]
    rfl
  rw [decodeAddress, decodeAddressC, hdata, hsplit]
  simp only [hparse, hdec]
  have hmod : p % 2 ^ 32 = p := Nat.mod_eq_of_lt (by
    have : (2 : Nat) ^ 32 = 4294967296 := by norm_num
    omega)
  simp [hmod, ipBytesString, dottedQuad]
  all_goals omega

/-- Witness for C5 at the Go doc example `"0500000A:0016" ↔ 10.0.0.5:22`. -/
theorem decodeAddress_encodeAddr_witness :
    (10 : Nat) < 256 ∧ (22 : Nat) < 65536 ∧
      decodeAddress (encodeAddr 10 0 0 5 22) =
        some { IP := dottedQuad 10 0 0 5, Port := 22 } :=
  ⟨by norm_num, by norm_num,
    decodeAddress_encodeAddr 10 0 0 5 22 (by norm_num) (by norm_num) (by norm_num)
      (by norm_num) (by norm_num)⟩

/-! ## Listening-port derivation (C9) -/

/-- C9: on both derivations, the listening-port set contains exactly the
local ports of the LISTEN connections bound to `0.0.0.0`, `::` or
`127.0.0.1`. -/
theorem listening_ports_exact :
    (∀ (conns : List InetDiagMsg) (p : String),
        p ∈ netlinkPorts conns ↔
          ∃ c ∈ conns, c.State = TCP_LISTEN ∧
            (c.SrcIPv.str = "0.0.0.0" ∨ c.SrcIPv.str = "::" ∨
              c.SrcIPv.str = "127.0.0.1") ∧
            p = Nat.repr c.SrcPortv) ∧
    (∀ (conns : List ConnectionStat) (p : String),
        p ∈ FilterByLocalListeningPorts conns ↔
          ∃ c ∈ conns, c.Status = TCP_LISTEN ∧
            (c.Laddr.IP = "0.0.0.0" ∨ c.Laddr.IP = "::" ∨
              c.Laddr.IP = "127.0.0.1") ∧
            p = Nat.repr c.Laddr.Port) := by
  constructor
  · intro conns p
    simp only [netlinkPorts, NetlinkFilterByLocalListeningPorts, List.mem_map,
      List.mem_filter, listenAddrOk, Bool.and_eq_true, decide_eq_true_eq,
      Bool.or_eq_true]
    constructor
    · rintro ⟨c, ⟨hmem, hst, hip⟩, hp⟩
      exact ⟨c, hmem, hst, by tauto, hp.symm⟩
    · rintro ⟨c, hmem, hst, hip, hp⟩
      exact ⟨c, ⟨hmem, hst, by tauto⟩, hp.symm⟩
  · intro conns p
    simp only [FilterByLocalListeningPorts, List.mem_map, List.mem_filter,
      listenAddrOk, Bool.and_eq_true, decide_eq_true_eq, Bool.or_eq_true]
    constructor
    · rintro ⟨c, ⟨hmem, hst, hip⟩, hp⟩
      exact ⟨c, hmem, hst, by tauto, hp.symm⟩
    · rintro ⟨c, hmem, hst, hip, hp⟩
      exact ⟨c, ⟨hmem, hst, by tauto⟩, hp.symm⟩

/-! ## Aggregation preserves per-flow shape properties -/

theorem insert_preserves (Q : HostFlow → Prop)
    (hQ : ∀ (g : HostFlow) (n : Nat), Q g → Q { g with connections := n })
    (fl : HostFlows) (hf : HostFlow) (hfl : ∀ g ∈ fl, Q g) (hhf : Q hf) :
    ∀ g ∈ fl.insert hf, Q g := by
  intro g hg
  rw [HostFlows.insert] at hg
  split at hg
  · rcases List.mem_map.mp hg with ⟨g0, hg0, heq⟩
    by_cases hk : g0.key = hf.key
    · rw [if_pos hk] at heq
      exact heq ▸ hQ g0 _ (hfl g0 hg0)
    · rw [if_neg hk] at heq
      exact heq ▸ hfl g0 hg0
  · rcases List.mem_append.mp hg with h | h
    · exact hfl g h
    · rcases List.mem_singleton.mp h with rfl
      exact hQ hf 1 hhf

theorem foldl_preserves {σ : Type} (Q : HostFlow → Prop)
    (step : HostFlows → σ → HostFlows)
    (hstep : ∀ (fl : HostFlows) (c : σ), (∀ g ∈ fl, Q g) → ∀ g ∈ step fl c, Q g) :
    ∀ (l : List σ) (fl : HostFlows), (∀ g ∈ fl, Q g) → ∀ g ∈ l.foldl step fl, Q g := by
  intro l
  induction l with
  | nil => intro fl hfl; simpa using hfl
  | cons c rest ih =>
    intro fl hfl
    exact ih (step fl c) (hstep fl c hfl)

theorem xorMany_connections (g : HostFlow) (n : Nat) (h : xorMany g) :
    xorMany { g with connections := n } := h

theorem xorMany_passive (lip lport rip : String) (pr : Option ProcessInfo)
    (n : Nat) (hl : lport ≠ "many") :
    xorMany { direction := .passive, loc := { addr := lip, port := lport },
              peer := { addr := rip, port := "many" }, process := pr,
              connections := n } := by
  simp [xorMany, hl]

theorem xorMany_active (lip rip rport : String) (pr : Option ProcessInfo)
    (n : Nat) (hr : rport ≠ "many") :
    xorMany { direction := .active, loc := { addr := lip, port := "many" },
              peer := { addr := rip, port := rport }, process := pr,
              connections := n } := by
  simp [xorMany, hr]

theorem netlinkStep_xorMany (ue : Option UserEnts) (lpe : UserEntByLport)
    (ports : List String) (filter : String) (fl : HostFlows) (conn : InetDiagMsg)
    (hfl : ∀ g ∈ fl, xorMany g) :
    ∀ g ∈ netlinkStep ue lpe ports filter fl conn, xorMany g := by
  intro g hg
  simp only [netlinkStep] at hg
  split at hg
  · exact hfl g hg
  · split at hg
    · exact hfl g hg
    · split at hg
      · exact insert_preserves xorMany xorMany_connections fl _ hfl
          (xorMany_passive _ _ _ _ _ (repr_ne_many conn.SrcPortv)) g hg
      · exact insert_preserves xorMany xorMany_connections fl _ hfl
          (xorMany_active _ _ _ _ _ (repr_ne_many conn.DstPortv)) g hg

theorem procfsStep_xorMany (ports : List String) (fl : HostFlows)
    (conn : ConnectionStat) (hfl : ∀ g ∈ fl, xorMany g) :
    ∀ g ∈ procfsStep ports fl conn, xorMany g := by
  intro g hg
  simp only [procfsStep] at hg
  split at hg
  · exact hfl g hg
  · split at hg
    · exact insert_preserves xorMany xorMany_connections fl _ hfl
        (xorMany_passive _ _ _ _ _ (repr_ne_many conn.Laddr.Port)) g hg
    · exact insert_preserves xorMany xorMany_connections fl _ hfl
        (xorMany_active _ _ _ _ _ (repr_ne_many conn.Raddr.Port)) g hg

theorem setLookupedName_xorMany (resolver : String → Option String)
    (hf : HostFlow) (h : xorMany hf) : xorMany (setLookupedName resolver hf) := h

/-- C4: every flow either builder emits has exactly one of
`local.port = "many"` or `peer.port = "many"`. -/
theorem builders_exactly_one_many :
    (∀ (ue : Option UserEnts) (conns : List InetDiagMsg)
        (opt : GetHostFlowsOption) (resolver : String → Option String)
        (hf : HostFlow), hf ∈ netlinkBuildFlows ue conns opt resolver →
      ((hf.loc.port = "many") ↔ hf.peer.port ≠ "many")) ∧
    (∀ (conns : List ConnectionStat) (hf : HostFlow),
        hf ∈ procfsBuildFlows conns →
      ((hf.loc.port = "many") ↔ hf.peer.port ≠ "many")) := by
  constructor
  · intro ue conns opt resolver hf hmem
    rw [netlinkBuildFlows] at hmem
    have hbase : ∀ g ∈ conns.foldl
        (netlinkStep ue (netlinkLportEnt ue conns) (netlinkPorts conns) opt.Filter)
        [], xorMany g :=
      foldl_preserves xorMany _
        (fun fl c hfl => netlinkStep_xorMany ue _ _ _ fl c hfl) conns []
        (by intro g hg; cases hg)
    by_cases hnum : opt.Numeric
    · rw [if_pos hnum] at hmem
      exact hbase hf hmem
    · rw [if_neg hnum] at hmem
      rcases List.mem_map.mp hmem with ⟨g0, hg0, heq⟩
      exact heq ▸ setLookupedName_xorMany resolver g0 (hbase g0 hg0)
  · intro conns hf hmem
    rw [procfsBuildFlows] at hmem
    exact foldl_preserves xorMany _
      (fun fl c hfl => procfsStep_xorMany _ fl c hfl) conns []
      (by intro g hg; cases hg) hf hmem

/-- Witness for C4 at one concrete connection on each path. -/
theorem builders_exactly_one_many_witness :
    (({ direction := .active, loc := { addr := "10.0.10.1", port := "many" },
        peer := { addr := "10.0.10.2", port := "5432" }, process := none,
        connections := 1 } : HostFlow).loc.port = "many" ↔
      ({ direction := .active, loc := { addr := "10.0.10.1", port := "many" },
         peer := { addr := "10.0.10.2", port := "5432" }, process := none,
         connections := 1 } : HostFlow).peer.port ≠ "many") ∧
    (({ direction := .passive, loc := { addr := "10.0.10.1", port := "80" },
        peer := { addr := "10.0.10.2", port := "many" }, process := none,
        connections := 1 } : HostFlow).loc.port = "many" ↔
      ({ direction := .passive, loc := { addr := "10.0.10.1", port := "80" },
         peer := { addr := "10.0.10.2", port := "many" }, process := none,
         connections := 1 } : HostFlow).peer.port ≠ "many") :=
  ⟨builders_exactly_one_many.1 none
      [⟨TCP_ESTABLISHED, ⟨10, 0, 10, 1⟩, ⟨10, 0, 10, 2⟩, 54321, 5432, 42⟩]
      ⟨true, false, "all"⟩ (fun _ => none) _ (by decide),
    builders_exactly_one_many.2
      [⟨⟨"0.0.0.0", 80⟩, ⟨"0.0.0.0", 0⟩, 10⟩,
        ⟨⟨"10.0.10.1", 80⟩, ⟨"10.0.10.2", 44444⟩, 1⟩] _ (by decide)⟩

/-! ## Stripping process attribution commutes with aggregation -/

theorem strip_key (hf : HostFlow) : hf.strip.key = hf.key := rfl

theorem stripProcesses_insert (fl : HostFlows) (hf : HostFlow) :
    stripProcesses (fl.insert hf) = (stripProcesses fl).insert hf.strip := by
  rw [HostFlows.insert, HostFlows.insert]
  have hany : (stripProcesses fl).any (fun g => decide (g.key = hf.strip.key)) =
      fl.any (fun g => decide (g.key = hf.key)) := by
    rw [stripProcesses, List.any_map]
    rfl
  rw [hany]
  split
  · rw [stripProcesses, stripProcesses, List.map_map, List.map_map]
    congr 1
    funext g
    by_cases hk : g.key = hf.key
    · have hks : g.strip.key = hf.strip.key := by rw [strip_key, strip_key, hk]
      simp only [Function.comp_apply, if_pos hk, if_pos hks]
      rfl
    · have hks : ¬g.strip.key = hf.strip.key := by
        rw [strip_key, strip_key]; exact hk
      simp only [Function.comp_apply, if_neg hk, if_neg hks]
  · rw [stripProcesses, stripProcesses, List.map_append]
    rfl

/-! ## The netlink loop implements the classification rule -/

theorem filterSkipped_all (dst : IPv4) : filterSkipped FilterAll dst = false := rfl

theorem netlinkStep_strip (ue : Option UserEnts) (lpe : UserEntByLport)
    (ports : List String) (fl : HostFlows) (conn : InetDiagMsg) :
    stripProcesses (netlinkStep ue lpe ports FilterAll fl conn) =
      specStep ports (stripProcesses fl) conn.toTuple := by
  by_cases hst : stateSkipped conn.State = true
  · have hst2 : stateSkipped conn.toTuple.state = true := hst
    simp [netlinkStep, specStep, hst, hst2]
  · have hst2 : ¬stateSkipped conn.toTuple.state = true := hst
    by_cases hctn : contains ports (Nat.repr conn.SrcPortv) = true
    · have hctn2 : contains ports conn.toTuple.lport = true := hctn
      simp [netlinkStep, specStep, specClassify, InetDiagMsg.toTuple,
        filterSkipped_all, hst, hst2, hctn, hctn2, stripProcesses_insert,
        HostFlow.strip]
    · have hctn2 : ¬contains ports conn.toTuple.lport = true := hctn
      simp [netlinkStep, specStep, specClassify, InetDiagMsg.toTuple,
        filterSkipped_all, hst, hst2, hctn, hctn2, stripProcesses_insert,
        HostFlow.strip]

theorem netlinkFold_spec (ue : Option UserEnts) (lpe : UserEntByLport)
    (ports : List String) :
    ∀ (conns : List InetDiagMsg) (fl : HostFlows),
      stripProcesses (conns.foldl (netlinkStep ue lpe ports FilterAll) fl) =
        (conns.map InetDiagMsg.toTuple).foldl (specStep ports) (stripProcesses fl) := by
  intro conns
  induction conns with
  | nil => intro fl; rfl
  | cons c rest ih =>
    intro fl
    simp only [List.foldl_cons, List.map_cons]
    rw [ih, netlinkStep_strip]

/-! ## The procfs loop implements the same rule -/

theorem procfsStep_spec (ports : List String) (fl : HostFlows) (conn : ConnectionStat) :
    procfsStep ports fl conn = specStep ports fl conn.toTuple := by
  by_cases hst : stateSkipped conn.Status = true
  · have hst2 : stateSkipped conn.toTuple.state = true := hst
    simp [procfsStep, specStep, hst, hst2]
  · have hst2 : ¬stateSkipped conn.toTuple.state = true := hst
    by_cases hctn : contains ports (Nat.repr conn.Laddr.Port) = true
    · have hctn2 : contains ports conn.toTuple.lport = true := hctn
      simp [procfsStep, specStep, specClassify, ConnectionStat.toTuple,
        hst, hst2, hctn, hctn2]
    · have hctn2 : ¬contains ports conn.toTuple.lport = true := hctn
      simp [procfsStep, specStep, specClassify, ConnectionStat.toTuple,
        hst, hst2, hctn, hctn2]

theorem procfsBuild_spec (conns : List ConnectionStat) :
    procfsBuildFlows conns =
      specFlowBuild (FilterByLocalListeningPorts conns)
        (conns.map ConnectionStat.toTuple) := by
  rw [procfsBuildFlows, specFlowBuild, List.foldl_map]
  congr 1
  funext fl c
  rw [procfsStep_spec]

/-! ## The two builders agree modulo process attribution -/

theorem toTuple_toConnectionStat (conn : InetDiagMsg) :
    conn.toConnectionStat.toTuple = conn.toTuple := rfl

theorem ports_map_toConnectionStat (conns : List InetDiagMsg) :
    FilterByLocalListeningPorts (conns.map InetDiagMsg.toConnectionStat) =
      netlinkPorts conns := by
  rw [FilterByLocalListeningPorts, netlinkPorts, NetlinkFilterByLocalListeningPorts,
    List.filter_map, List.map_map]
  have hp : ((fun conn : ConnectionStat =>
        decide (conn.Status = TCP_LISTEN) && listenAddrOk conn.Laddr.IP) ∘
          InetDiagMsg.toConnectionStat) =
      (fun conn : InetDiagMsg =>
        decide (conn.State = TCP_LISTEN) && listenAddrOk conn.SrcIPv.str) := rfl
  rw [hp]
  rfl

/-- C1 (amended): with the address filter at `all` and numeric mode on,
the netlink builder emits — modulo the attached process attribution —
exactly the spec's classification of every state-retained connection; the
procfs builder does so unconditionally. -/
theorem builders_emit_classification :
    (∀ (ue : Option UserEnts) (conns : List InetDiagMsg)
        (opt : GetHostFlowsOption) (resolver : String → Option String),
      opt.Filter = FilterAll → opt.Numeric = true →
        stripProcesses (netlinkBuildFlows ue conns opt resolver) =
          specFlowBuild (netlinkPorts conns) (conns.map InetDiagMsg.toTuple)) ∧
    (∀ conns : List ConnectionStat,
      procfsBuildFlows conns =
        specFlowBuild (FilterByLocalListeningPorts conns)
          (conns.map ConnectionStat.toTuple)) := by
  constructor
  · intro ue conns opt resolver hfilter hnum
    rw [netlinkBuildFlows, hfilter, if_pos hnum]
    rw [netlinkFold_spec ue (netlinkLportEnt ue conns) (netlinkPorts conns) conns []]
    rfl
  · exact procfsBuild_spec

/-- Witness for C1's amended theorem at the S2 scenario (one listener on
port 80 plus one established inbound connection). -/
theorem builders_emit_classification_witness :
    (({ Numeric := true, Processes := false, Filter := "all" } :
        GetHostFlowsOption).Filter = FilterAll) ∧
    (({ Numeric := true, Processes := false, Filter := "all" } :
        GetHostFlowsOption).Numeric = true) ∧
    stripProcesses
        (netlinkBuildFlows none
          [⟨TCP_LISTEN, ⟨0, 0, 0, 0⟩, ⟨0, 0, 0, 0⟩, 80, 0, 7⟩,
            ⟨TCP_ESTABLISHED, ⟨10, 0, 10, 1⟩, ⟨10, 0, 10, 2⟩, 80, 44444, 99⟩]
          { Numeric := true, Processes := false, Filter := "all" }
          (fun _ => none)) =
      specFlowBuild
        (netlinkPorts
          [⟨TCP_LISTEN, ⟨0, 0, 0, 0⟩, ⟨0, 0, 0, 0⟩, 80, 0, 7⟩,
            ⟨TCP_ESTABLISHED, ⟨10, 0, 10, 1⟩, ⟨10, 0, 10, 2⟩, 80, 44444, 99⟩])
        ([⟨TCP_LISTEN, ⟨0, 0, 0, 0⟩, ⟨0, 0, 0, 0⟩, 80, 0, 7⟩,
            ⟨TCP_ESTABLISHED, ⟨10, 0, 10, 1⟩, ⟨10, 0, 10, 2⟩, 80, 44444, 99⟩].map
          InetDiagMsg.toTuple) :=
  ⟨rfl, rfl,
    builders_emit_classification.1 none _ _ (fun _ => none) rfl rfl⟩

/-- Counterexample to C1 as stated: under the `private` address filter
the netlink builder drops an `ESTABLISHED` connection to a public
destination, so it does not emit the flow the classification rule
prescribes for it. -/
theorem netlink_classification_filter_cex :
    stripProcesses
        (netlinkBuildFlows none
          [⟨TCP_ESTABLISHED, ⟨10, 0, 10, 1⟩, ⟨93, 184, 216, 34⟩, 54321, 443, 0⟩]
          { Numeric := true, Processes := false, Filter := "private" }
          (fun _ => none)) = [] ∧
    specFlowBuild
        (netlinkPorts
          [⟨TCP_ESTABLISHED, ⟨10, 0, 10, 1⟩, ⟨93, 184, 216, 34⟩, 54321, 443, 0⟩])
        ([⟨TCP_ESTABLISHED, ⟨10, 0, 10, 1⟩, ⟨93, 184, 216, 34⟩, 54321, 443, 0⟩].map
          InetDiagMsg.toTuple) ≠ [] := by
  constructor
  · rfl
  · decide

/-- C8 (amended): with the address filter at `all` and numeric mode on,
the procfs builder on the identical connections produces exactly the
netlink builder's output with process attribution removed. -/
theorem procfs_matches_netlink :
    ∀ (ue : Option UserEnts) (conns : List InetDiagMsg)
      (opt : GetHostFlowsOption) (resolver : String → Option String),
      opt.Filter = FilterAll → opt.Numeric = true →
        procfsBuildFlows (conns.map InetDiagMsg.toConnectionStat) =
          stripProcesses (netlinkBuildFlows ue conns opt resolver) := by
  intro ue conns opt resolver hfilter hnum
  rw [procfsBuild_spec, ports_map_toConnectionStat, List.map_map]
  rw [netlinkBuildFlows, hfilter, if_pos hnum]
  rw [netlinkFold_spec ue (netlinkLportEnt ue conns) (netlinkPorts conns) conns []]
  rfl

/-- Witness for C8's amended theorem at the S2 scenario with process
attribution on (the stripped outputs coincide). -/
theorem procfs_matches_netlink_witness :
    (({ Numeric := true, Processes := true, Filter := "all" } :
        GetHostFlowsOption).Filter = FilterAll) ∧
    procfsBuildFlows
        ([⟨TCP_LISTEN, ⟨0, 0, 0, 0⟩, ⟨0, 0, 0, 0⟩, 80, 0, 7⟩,
            ⟨TCP_ESTABLISHED, ⟨10, 0, 10, 1⟩, ⟨10, 0, 10, 2⟩, 80, 44444, 99⟩].map
          InetDiagMsg.toConnectionStat) =
      stripProcesses
        (netlinkBuildFlows (some [(7, ⟨7, 3, 200, "nginx", 1, 1002⟩)])
          [⟨TCP_LISTEN, ⟨0, 0, 0, 0⟩, ⟨0, 0, 0, 0⟩, 80, 0, 7⟩,
            ⟨TCP_ESTABLISHED, ⟨10, 0, 10, 1⟩, ⟨10, 0, 10, 2⟩, 80, 44444, 99⟩]
          { Numeric := true, Processes := true, Filter := "all" }
          (fun _ => none)) :=
  ⟨rfl,
    procfs_matches_netlink (some [(7, ⟨7, 3, 200, "nginx", 1, 1002⟩)]) _ _
      (fun _ => none) rfl rfl⟩

/-- Counterexample to C8 as stated: under the `public` address filter the
netlink builder drops a connection to a private destination while the
procfs builder (which ignores the filter option entirely) keeps it, so
the fallback output differs for identical input under the same options. -/
theorem procfs_netlink_filter_cex :
    procfsBuildFlows
        ([⟨TCP_ESTABLISHED, ⟨10, 0, 10, 1⟩, ⟨10, 0, 10, 2⟩, 54321, 5432, 0⟩].map
          InetDiagMsg.toConnectionStat) ≠
      stripProcesses
        (netlinkBuildFlows none
          [⟨TCP_ESTABLISHED, ⟨10, 0, 10, 1⟩, ⟨10, 0, 10, 2⟩, 54321, 5432, 0⟩]
          { Numeric := true, Processes := false, Filter := "public" }
          (fun _ => none)) := by
  decide

/-! ## Upsert engine traces (C2) -/

theorem insertFlowStep_length (st : DBState) (f : HostFlow) :
    (insertFlowStep st f).1.length = 3 := rfl

theorem runFlows_cons (st : DBState) (g : HostFlow) (rest : List HostFlow) :
    runFlows st (g :: rest) =
      (insertFlowStep st g).1 ++ runFlows (insertFlowStep st g).2 rest := rfl

theorem runFlows_length (st : DBState) :
    ∀ flows : List HostFlow, (runFlows st flows).length = 3 * flows.length := by
  intro flows
  induction flows generalizing st with
  | nil => rfl
  | cons g rest ih =>
    rw [runFlows_cons, List.length_append, insertFlowStep_length, ih,
      List.length_cons]
    ring

theorem runFlows_events (flows : List HostFlow) :
    ∀ (st : DBState) (i : Nat) (f : HostFlow), flows[i]? = some f →
      ∃ a b : Nat,
        (runFlows st flows)[3 * i]? =
            some (DBEvent.upsertNode (localNodeArgs f).1 (localNodeArgs f).2.1
              (localNodeArgs f).2.2.1 (localNodeArgs f).2.2.2 a) ∧
        (runFlows st flows)[3 * i + 1]? =
            some (DBEvent.upsertNode (peerNodeArgs f).1 (peerNodeArgs f).2.1
              (peerNodeArgs f).2.2.1 (peerNodeArgs f).2.2.2 b) ∧
        (runFlows st flows)[3 * i + 2]? =
            some (DBEvent.upsertFlow (dirString f.direction)
              (match f.direction with | .active => a | .passive => b)
              (match f.direction with | .active => b | .passive => a)
              f.connections) := by
  induction flows with
  | nil =>
    intro st i f h
    simp at h
  | cons g rest ih =>
    intro st i f h
    cases i with
    | zero =>
      rw [List.getElem?_cons_zero, Option.some.injEq] at h
      subst h
      refine ⟨(st.upsertNode (g.loc.addr, portNumOf g.loc.port,
          (match g.process with | some p => p.Pgid | none => (0 : Int)),
          (match g.process with | some p => p.Name | none => ""))).1,
        ((st.upsertNode (g.loc.addr, portNumOf g.loc.port,
          (match g.process with | some p => p.Pgid | none => (0 : Int)),
          (match g.process with | some p => p.Name | none => ""))).2.upsertNode
          (g.peer.addr, portNumOf g.peer.port, 0, "")).1, ?_, ?_, ?_⟩ <;>
        cases hp : g.process <;> cases hd : g.direction <;>
          simp [runFlows_cons, insertFlowStep, localNodeArgs, peerNodeArgs,
            dirString, hp, hd]
    | succ j =>
      rw [List.getElem?_cons_succ] at h
      obtain ⟨a, b, h1, h2, h3⟩ := ih (insertFlowStep st g).2 j f h
      have hlen : (insertFlowStep st g).1.length = 3 := rfl
      refine ⟨a, b, ?_, ?_, ?_⟩
      · rw [runFlows_cons, List.getElem?_append_right (by rw [hlen]; omega)]
        rw [show 3 * (j + 1) - (insertFlowStep st g).1.length = 3 * j by
          rw [hlen]; omega]
        exact h1
      · rw [runFlows_cons, List.getElem?_append_right (by rw [hlen]; omega)]
        rw [show 3 * (j + 1) + 1 - (insertFlowStep st g).1.length = 3 * j + 1 by
          rw [hlen]; omega]
        exact h2
      · rw [runFlows_cons, List.getElem?_append_right (by rw [hlen]; omega)]
        rw [show 3 * (j + 1) + 2 - (insertFlowStep st g).1.length = 3 * j + 2 by
          rw [hlen]; omega]
        exact h3

/-- C2: each flow handed to the upsert engine yields exactly a local-node
upsert with `(local.addr, numeric(local.port), pgid|0, pname|"")`, a
peer-node upsert with `(peer.addr, numeric(peer.port), 0, "")`, and a
flow upsert whose `(src, dst)` is `(local, peer)` for active and
`(peer, local)` for passive; the concrete traces reproduce the sqlmock
expectations of `TestInsertOrUpdateHostFlows` and
`TestInsertOrUpdateHostFlows_empty_process` exactly. -/
theorem upsert_args_exact :
    (∀ (flows : List HostFlow) (i : Nat) (f : HostFlow), flows[i]? = some f →
      ∃ a b : Nat,
        (InsertOrUpdateHostFlows flows)[3 * i]? =
            some (DBEvent.upsertNode (localNodeArgs f).1 (localNodeArgs f).2.1
              (localNodeArgs f).2.2.1 (localNodeArgs f).2.2.2 a) ∧
        (InsertOrUpdateHostFlows flows)[3 * i + 1]? =
            some (DBEvent.upsertNode (peerNodeArgs f).1 (peerNodeArgs f).2.1
              (peerNodeArgs f).2.2.1 (peerNodeArgs f).2.2.2 b) ∧
        (InsertOrUpdateHostFlows flows)[3 * i + 2]? =
            some (DBEvent.upsertFlow (dirString f.direction)
              (match f.direction with | .active => a | .passive => b)
              (match f.direction with | .active => b | .passive => a)
              f.connections)) ∧
    (∀ flows : List HostFlow,
      (InsertOrUpdateHostFlows flows).length = 3 * flows.length) ∧
    InsertOrUpdateHostFlows
        [{ direction := .active, loc := { addr := "10.0.10.1", port := "many" },
           peer := { addr := "10.0.10.2", port := "5432" },
           process := some { Name := "python", Pgid := 1001 }, connections := 10 },
          { direction := .passive, loc := { addr := "10.0.10.1", port := "80" },
            peer := { addr := "10.0.10.2", port := "many" },
            process := some { Name := "nginx", Pgid := 1002 }, connections := 12 }] =
      [DBEvent.upsertNode "10.0.10.1" 0 1001 "python" 1,
        DBEvent.upsertNode "10.0.10.2" 5432 0 "" 2,
        DBEvent.upsertFlow "active" 1 2 10,
        DBEvent.upsertNode "10.0.10.1" 80 1002 "nginx" 3,
        DBEvent.upsertNode "10.0.10.2" 0 0 "" 4,
        DBEvent.upsertFlow "passive" 4 3 12] ∧
    InsertOrUpdateHostFlows
        [{ direction := .active, loc := { addr := "10.0.10.1", port := "many" },
           peer := { addr := "10.0.10.2", port := "5432" },
           process := none, connections := 10 }] =
      [DBEvent.upsertNode "10.0.10.1" 0 0 "" 1,
        DBEvent.upsertNode "10.0.10.2" 5432 0 "" 2,
        DBEvent.upsertFlow "active" 1 2 10] := by
  refine ⟨?_, ?_, ?_, ?_⟩
  · intro flows i f h
    exact runFlows_events flows ⟨[], 1⟩ i f h
  · intro flows
    exact runFlows_length ⟨[], 1⟩ flows
  · rfl
  · rfl

/-- Witness for C2 at the first sqlmock test flow. -/
theorem upsert_args_exact_witness :
    ∃ a b : Nat,
      (InsertOrUpdateHostFlows
          [{ direction := .active, loc := { addr := "10.0.10.1", port := "many" },
             peer := { addr := "10.0.10.2", port := "5432" },
             process := some { Name := "python", Pgid := 1001 },
             connections := 10 }])[0]? =
          some (DBEvent.upsertNode "10.0.10.1" 0 1001 "python" a) ∧
        (InsertOrUpdateHostFlows
          [{ direction := .active, loc := { addr := "10.0.10.1", port := "many" },
             peer := { addr := "10.0.10.2", port := "5432" },
             process := some { Name := "python", Pgid := 1001 },
             connections := 10 }])[1]? =
          some (DBEvent.upsertNode "10.0.10.2" 5432 0 "" b) ∧
        (InsertOrUpdateHostFlows
          [{ direction := .active, loc := { addr := "10.0.10.1", port := "many" },
             peer := { addr := "10.0.10.2", port := "5432" },
             process := some { Name := "python", Pgid := 1001 },
             connections := 10 }])[2]? =
          some (DBEvent.upsertFlow "active" a b 10) :=
  upsert_args_exact.1
    [{ direction := .active, loc := { addr := "10.0.10.1", port := "many" },
       peer := { addr := "10.0.10.2", port := "5432" },
       process := some { Name := "python", Pgid := 1001 }, connections := 10 }]
    0 _ rfl

/-! ## Fallback dispatch (C3) -/

theorem parseSocketInode_err (lnk : String) (e : GoErr)
    (h : parseSocketInode lnk = .error e) : isNetlinkError e = false := by
  rw [parseSocketInode] at h
  split at h
  · cases h
  · split at h
    · cases h
    · injection h with h1
      rw [← h1]
      rfl

theorem buildFds_err (statRes : Except Errno ProcStat) (pid : Int) :
    ∀ (ents : List FdEntry) (stat? : Option ProcStat) (acc : UserEnts) (e : GoErr),
      buildFds statRes pid ents stat? acc = .error e → isNetlinkError e = false := by
  intro ents
  induction ents with
  | nil =>
    intro stat? acc e h
    cases h
  | cons fd rest ih =>
    intro stat? acc e h
    rw [buildFds] at h
    split at h
    · exact ih _ _ _ h
    · split at h
      · split at h
        · exact ih _ _ _ h
        · injection h with h1
          rw [← h1]
          rfl
      · split at h
        · rename_i err heq
          injection h with h1
          exact parseSocketInode_err _ _ (h1 ▸ heq)
        · split at h
          · exact ih _ _ _ h
          · split at h
            · exact ih _ _ _ h
            · split at h
              · injection h with h1
                rw [← h1]
                rfl
              · exact ih _ _ _ h

theorem buildPids_err (selfPid : Int) :
    ∀ (dirs : List PidEntry) (acc : UserEnts) (e : GoErr),
      buildPids selfPid dirs acc = .error e → isNetlinkError e = false := by
  intro dirs
  induction dirs with
  | nil =>
    intro acc e h
    cases h
  | cons d rest ih =>
    intro acc e h
    rw [buildPids] at h
    split at h
    · exact ih _ _ h
    · split at h
      · exact ih _ _ h
      · split at h
        · exact ih _ _ h
        · split at h
          · injection h with h1
            rw [← h1]
            rfl
          · split at h
            · exact ih _ _ h
            · split at h
              · split at h
                · exact ih _ _ h
                · injection h with h1
                  rw [← h1]
                  rfl
              · split at h
                · rename_i err heq
                  injection h with h1
                  exact buildFds_err _ _ _ _ _ _ (h1 ▸ heq)
                · exact ih _ _ h

theorem buildUserEntries_err (selfPid : Int) (rootRes : Except Errno (List PidEntry))
    (e : GoErr) (h : BuildUserEntries selfPid rootRes = .error e) :
    isNetlinkError e = false := by
  rw [BuildUserEntries.eq_def] at h
  split at h
  · injection h with h1
    rw [← h1]
    rfl
  · exact buildPids_err _ _ _ _ h

/-- C3: `GetHostFlows` falls back to procfs exactly on an error matching
the `NetlinkError` sentinel — which `NetlinkConnections` produces for any
raw netlink failure — while every other error, in particular any
`BuildUserEntries` failure (none of which is netlink-tagged), is returned
unchanged without the fallback, and a netlink success is returned
as-is. -/
theorem fallback_exactly_on_netlink_error :
    (∀ (env : ProbeEnv) (opt : GetHostFlowsOption) (e : GoErr),
        GetHostFlowsByNetlink env opt = .error e → isNetlinkError e = true →
          GetHostFlows env opt = GetHostFlowsByProcfs env) ∧
    (∀ (env : ProbeEnv) (opt : GetHostFlowsOption) (e : GoErr),
        GetHostFlowsByNetlink env opt = .error e → isNetlinkError e = false →
          GetHostFlows env opt = .error e) ∧
    (∀ (env : ProbeEnv) (opt : GetHostFlowsOption) (fl : HostFlows),
        GetHostFlowsByNetlink env opt = .ok fl → GetHostFlows env opt = .ok fl) ∧
    (∀ (raw : Except String (List InetDiagMsg)) (s : String), raw = .error s →
        NetlinkConnections raw = .error (.netlink "NetlinkInetDiag") ∧
          isNetlinkError (GoErr.netlink "NetlinkInetDiag") = true) ∧
    (∀ (selfPid : Int) (rootRes : Except Errno (List PidEntry)) (e : GoErr),
        BuildUserEntries selfPid rootRes = .error e → isNetlinkError e = false) ∧
    (∀ (env : ProbeEnv) (opt : GetHostFlowsOption) (e : GoErr),
        opt.Processes = true →
          BuildUserEntries env.selfPid env.procRoot = .error e →
            GetHostFlows env opt = .error e) := by
  refine ⟨?_, ?_, ?_, ?_, ?_, ?_⟩
  · intro env opt e h hn
    simp only [GetHostFlows, h, hn, if_true]
  · intro env opt e h hn
    simp only [GetHostFlows, h, hn, Bool.false_eq_true, if_false]
  · intro env opt fl h
    simp only [GetHostFlows, h]
  · rintro raw s rfl
    exact ⟨rfl, rfl⟩
  · exact buildUserEntries_err
  · intro env opt e hproc h
    have hnl : GetHostFlowsByNetlink env opt = .error e := by
      simp only [GetHostFlowsByNetlink, hproc, if_true, h, Except.map]
    simp only [GetHostFlows, hnl,
      buildUserEntries_err env.selfPid env.procRoot e h, Bool.false_eq_true,
      if_false]

/-- Witness for C3: a netlink send failure falls back to procfs, while a
permission failure walking `/proc` with process attribution on is
returned unchanged. -/
theorem fallback_exactly_on_netlink_error_witness :
    GetHostFlows
        { selfPid := 1, procRoot := .ok [], rawNetlink := .error "sendmsg",
          tcpFile := .ok "", resolver := fun _ => none }
        { Numeric := true, Processes := false, Filter := "all" } =
      GetHostFlowsByProcfs
        { selfPid := 1, procRoot := .ok [], rawNetlink := .error "sendmsg",
          tcpFile := .ok "", resolver := fun _ => none } ∧
    GetHostFlows
        { selfPid := 1, procRoot := .error .eacces, rawNetlink := .ok [],
          tcpFile := .ok "", resolver := fun _ => none }
        { Numeric := true, Processes := true, Filter := "all" } =
      .error (.fs .eacces "readdir root") :=
  ⟨fallback_exactly_on_netlink_error.1
      { selfPid := 1, procRoot := .ok [], rawNetlink := .error "sendmsg",
        tcpFile := .ok "", resolver := fun _ => none }
      { Numeric := true, Processes := false, Filter := "all" }
      (.netlink "NetlinkInetDiag") rfl rfl,
    fallback_exactly_on_netlink_error.2.2.2.2.2
      { selfPid := 1, procRoot := .error .eacces, rawNetlink := .ok [],
        tcpFile := .ok "", resolver := fun _ => none }
      { Numeric := true, Processes := true, Filter := "all" }
      (.fs .eacces "readdir root") rfl rfl⟩

/-! ## Procfs line handling (C7) -/

/-- C7 (amended): a line with fewer than ten fields or an undecodable
address contributes no `ConnectionStat`; a line whose state field fails
`ParseUint` is nevertheless retained, carrying the `ParseUint` result
value (0 on a syntax error); well-formed lines are all retained in
order, and parsing never makes `ProcfsConnections` return an error. -/
theorem procfs_line_handling :
    (∀ body : String, ProcfsConnections (.ok body) = .ok (parseProcNetTcp body)) ∧
    (∀ body : String, parseProcNetTcp body =
      ((splitOnChar '\n' body.data).drop 1).filterMap parseProcLine) ∧
    (∀ line : List Char,
      parseProcLine line = none ↔
        ((fields line).length < 10 ∨
          decodeAddressC ((fields line).getD 1 []) = none ∨
          decodeAddressC ((fields line).getD 2 []) = none)) ∧
    (∀ (line : List Char) (la ra : Addr), ¬(fields line).length < 10 →
      decodeAddressC ((fields line).getD 1 []) = some la →
      decodeAddressC ((fields line).getD 2 []) = some ra →
      parseProcLine line =
        some { Laddr := la, Raddr := ra,
               Status := (parseUint8Hex ((fields line).getD 3 [])).1 }) := by
  refine ⟨fun _ => rfl, fun _ => rfl, ?_, ?_⟩
  · intro line
    simp only [List.getD_eq_getElem?_getD]
    by_cases hlen : (fields line).length < 10
    · simp [parseProcLine, hlen]
    · cases h1 : decodeAddressC ((fields line)[1]?.getD []) with
      | none => simp [parseProcLine, hlen, h1]
      | some la =>
        cases h2 : decodeAddressC ((fields line)[2]?.getD []) with
        | none => simp [parseProcLine, hlen, h1, h2]
        | some ra => simp [parseProcLine, hlen, h1, h2]
  · intro line la ra hlen h1 h2
    simp only [List.getD_eq_getElem?_getD] at h1 h2
    simp [parseProcLine, hlen, h1, h2]

/-- Witness for C7's amended theorem: a line with only three fields is
skipped while a well-formed line is retained. -/
theorem procfs_line_handling_witness :
    (parseProcLine (strData " 0: 0100007F:1F90 00000000:0000") = none) ∧
    parseProcLine
        (strData " 1: 0100007F:1F90 0500000A:1538 01 0 0 0 0 0 0 0") =
      some { Laddr := { IP := "127.0.0.1", Port := 8080 },
             Raddr := { IP := "10.0.0.5", Port := 5432 }, Status := 1 } :=
  ⟨(procfs_line_handling.2.2.1 _).mpr (by decide),
    by
      have h := procfs_line_handling.2.2.2
        (strData " 1: 0100007F:1F90 0500000A:1538 01 0 0 0 0 0 0 0")
        { IP := "127.0.0.1", Port := 8080 } { IP := "10.0.0.5", Port := 5432 }
        (by decide) (by decide) (by decide)
      rw [h]
      rfl⟩

/-- Counterexample to C7 as stated: a line whose state field `ZZ` is
unparseable is not skipped — `ParseUint` fails but the code only logs the
error and keeps the line with the zero value, so it does contribute a
`ConnectionStat`. -/
theorem procfs_state_field_cex :
    (parseUint8Hex (strData "ZZ")).2 = false ∧
    parseProcNetTcp
        ("sl local rem st extra\n" ++
          " 0: 0100007F:1F90 0500000A:1538 ZZ 0 0 0 0 0 0 0") =
      [{ Laddr := { IP := "127.0.0.1", Port := 8080 },
         Raddr := { IP := "10.0.0.5", Port := 5432 }, Status := 0 }] := by
  constructor
  · rfl
  · decide

/-! ## Process-attributor error handling (C6) -/

/-- C6 (amended): during the `/proc` walk, `EACCES` reading a PID's `fd`
directory skips that PID silently, `ENOENT` reading an fd symlink skips
that fd silently, and every other error — including `ENOENT` from a
transient PID when stat'ing or listing its `fd` directory — is fatal for
the whole tick. -/
theorem build_user_entries_errors :
    (∀ (selfPid : Int) (d : PidEntry) (rest : List PidEntry) (pid : Int),
      d.isDir = true → atoi d.name = some pid → pid ≠ selfPid →
      d.fdStatIsDir = .ok true → d.fdEntries = .error .eacces →
      BuildUserEntries selfPid (.ok (d :: rest)) =
        BuildUserEntries selfPid (.ok rest)) ∧
    (∀ (statRes : Except Errno ProcStat) (pid : Int) (e : FdEntry)
        (rest : List FdEntry) (stat? : Option ProcStat) (acc : UserEnts) (fd : Int),
      atoi e.name = some fd → e.linkRes = .error .enoent →
      buildFds statRes pid (e :: rest) stat? acc =
        buildFds statRes pid rest stat? acc) ∧
    (∀ (selfPid : Int) (d : PidEntry) (rest : List PidEntry) (pid : Int)
        (errno : Errno),
      d.isDir = true → atoi d.name = some pid → pid ≠ selfPid →
      d.fdStatIsDir = .error errno →
      BuildUserEntries selfPid (.ok (d :: rest)) =
        .error (.fs errno "stat fdDir")) ∧
    (∀ (selfPid : Int) (d : PidEntry) (rest : List PidEntry) (pid : Int)
        (errno : Errno),
      d.isDir = true → atoi d.name = some pid → pid ≠ selfPid →
      d.fdStatIsDir = .ok true → d.fdEntries = .error errno → errno ≠ .eacces →
      BuildUserEntries selfPid (.ok (d :: rest)) =
        .error (.fs errno "readdir fdDir")) ∧
    (∀ (statRes : Except Errno ProcStat) (pid : Int) (e : FdEntry)
        (rest : List FdEntry) (stat? : Option ProcStat) (acc : UserEnts)
        (fd : Int) (errno : Errno),
      atoi e.name = some fd → e.linkRes = .error errno → errno ≠ .enoent →
      buildFds statRes pid (e :: rest) stat? acc = .error (.fs errno "readlink")) := by
  refine ⟨?_, ?_, ?_, ?_, ?_⟩
  · intro selfPid d rest pid hdir hatoi hne hstat hents
    simp [BuildUserEntries, buildPids, hdir, hatoi, hne, hstat, hents]
  · intro statRes pid e rest stat? acc fd hatoi hlnk
    simp [buildFds, hatoi, hlnk]
  · intro selfPid d rest pid errno hdir hatoi hne hstat
    simp [BuildUserEntries, buildPids, hdir, hatoi, hne, hstat]
  · intro selfPid d rest pid errno hdir hatoi hne hstat hents heacc
    simp [BuildUserEntries, buildPids, hdir, hatoi, hne, hstat, hents, heacc]
  · intro statRes pid e rest stat? acc fd errno hatoi hlnk henoent
    simp [buildFds, hatoi, hlnk, henoent]

/-- Witness for C6's amended theorem: a permission-denied fd directory is
skipped, while ENOENT listing the fd directory is fatal. -/
theorem build_user_entries_errors_witness :
    BuildUserEntries 1
        (.ok [{ name := "42", isDir := true, fdStatIsDir := .ok true,
                fdEntries := .error .eacces, statRes := .ok ⟨"x", 0, 0⟩ }]) =
      BuildUserEntries 1 (.ok []) ∧
    BuildUserEntries 1
        (.ok [{ name := "42", isDir := true, fdStatIsDir := .ok true,
                fdEntries := .error .eio, statRes := .ok ⟨"x", 0, 0⟩ }]) =
      .error (.fs .eio "readdir fdDir") :=
  ⟨build_user_entries_errors.1 1
      { name := "42", isDir := true, fdStatIsDir := .ok true,
        fdEntries := .error .eacces, statRes := .ok ⟨"x", 0, 0⟩ } [] 42
      rfl rfl (by decide) rfl rfl,
    build_user_entries_errors.2.2.2.1 1
      { name := "42", isDir := true, fdStatIsDir := .ok true,
        fdEntries := .error .eio, statRes := .ok ⟨"x", 0, 0⟩ } [] 42 .eio
      rfl rfl (by decide) rfl rfl (by decide)⟩

/-- Counterexample to C6 as stated: a transient PID that disappears with
`ENOENT` while its fd directory is being listed is not skipped silently —
`BuildUserEntries` fails for the whole tick (only `EACCES` is absorbed at
that point, and only `Readlink` absorbs `ENOENT`). -/
theorem transient_pid_enoent_cex :
    BuildUserEntries 1
        (.ok [{ name := "42", isDir := true, fdStatIsDir := .ok true,
                fdEntries := .error .enoent, statRes := .ok ⟨"x", 0, 0⟩ }]) =
      .error (.fs .enoent "readdir fdDir") := by
  rfl

/-! ## Non-socket file descriptors (C10) -/

theorem buildFds_no_socket (statRes : Except Errno ProcStat) (pid : Int) :
    ∀ (ents : List FdEntry) (acc : UserEnts),
      (∀ e ∈ ents, ∃ lnk, e.linkRes = .ok lnk ∧
        containsSub lnk.data (strData "socket:[") = false) →
      buildFds statRes pid ents none acc = .ok (none, acc) := by
  intro ents
  induction ents with
  | nil => intro acc _; rfl
  | cons e rest ih =>
    intro acc hall
    obtain ⟨lnk, hlnk, hsub⟩ := hall e (List.mem_cons_self e rest)
    have hrest := fun e he => hall e (List.mem_cons_of_mem _ he)
    have hparse : parseSocketInode lnk = .ok 0 := by
      rw [parseSocketInode, if_pos hsub]
    cases hatoi : atoi e.name with
    | none => simp [buildFds, hatoi, ih acc hrest]
    | some fd => simp [buildFds, hatoi, hlnk, hparse, ih acc hrest]

/-- C10: a link without the `socket:[` substring parses to inode 0 with
no error; an fd whose parsed inode is 0 is skipped; and a PID all of
whose fd links are non-socket contributes no `UserEnt` and never triggers
the lazy `/proc/<pid>/stat` read (its stat result — even an error — is
irrelevant, and the walk's output is as if the PID were absent). -/
theorem non_socket_fds_ignored :
    (∀ lnk : String, containsSub lnk.data (strData "socket:[") = false →
      parseSocketInode lnk = .ok 0) ∧
    (∀ (statRes : Except Errno ProcStat) (pid : Int) (e : FdEntry)
        (rest : List FdEntry) (stat? : Option ProcStat) (acc : UserEnts)
        (fd : Int) (lnk : String),
      atoi e.name = some fd → e.linkRes = .ok lnk → parseSocketInode lnk = .ok 0 →
      buildFds statRes pid (e :: rest) stat? acc =
        buildFds statRes pid rest stat? acc) ∧
    (∀ (statRes : Except Errno ProcStat) (pid : Int) (ents : List FdEntry)
        (acc : UserEnts),
      (∀ e ∈ ents, ∃ lnk, e.linkRes = .ok lnk ∧
        containsSub lnk.data (strData "socket:[") = false) →
      buildFds statRes pid ents none acc = .ok (none, acc)) ∧
    (∀ (selfPid : Int) (d : PidEntry) (rest : List PidEntry) (pid : Int)
        (ents : List FdEntry),
      d.isDir = true → atoi d.name = some pid → pid ≠ selfPid →
      d.fdStatIsDir = .ok true → d.fdEntries = .ok ents →
      (∀ e ∈ ents, ∃ lnk, e.linkRes = .ok lnk ∧
        containsSub lnk.data (strData "socket:[") = false) →
      BuildUserEntries selfPid (.ok (d :: rest)) =
        BuildUserEntries selfPid (.ok rest)) := by
  refine ⟨?_, ?_, buildFds_no_socket, ?_⟩
  · intro lnk h
    rw [parseSocketInode, if_pos h]
  · intro statRes pid e rest stat? acc fd lnk hatoi hlnk hparse
    simp [buildFds, hatoi, hlnk, hparse]
  · intro selfPid d rest pid ents hdir hatoi hne hstat hents hall
    simp [BuildUserEntries, buildPids, hdir, hatoi, hne, hstat, hents,
      buildFds_no_socket d.statRes pid ents [] hall]

/-- Witness for C10: a PID whose fds are `/dev/null` and a pipe (with an
unreadable stat file) contributes nothing. -/
theorem non_socket_fds_ignored_witness :
    parseSocketInode "/dev/null" = .ok 0 ∧
    BuildUserEntries 1
        (.ok [{ name := "42", isDir := true, fdStatIsDir := .ok true,
                fdEntries := .ok [{ name := "0", linkRes := .ok "/dev/null" },
                  { name := "1", linkRes := .ok "pipe:[777]" }],
                statRes := .error .eacces }]) =
      BuildUserEntries 1 (.ok []) :=
  ⟨non_socket_fds_ignored.1 "/dev/null" (by decide),
    non_socket_fds_ignored.2.2.2 1
      { name := "42", isDir := true, fdStatIsDir := .ok true,
        fdEntries := .ok [{ name := "0", linkRes := .ok "/dev/null" },
          { name := "1", linkRes := .ok "pipe:[777]" }],
        statRes := .error .eacces } [] 42
      [{ name := "0", linkRes := .ok "/dev/null" },
        { name := "1", linkRes := .ok "pipe:[777]" }]
      rfl rfl (by decide) rfl rfl
      (by
        intro e he
        rcases List.mem_cons.mp he with rfl | he2
        · exact ⟨"/dev/null", rfl, by decide⟩
        · rcases List.mem_singleton.mp he2 with rfl
          exact ⟨"pipe:[777]", rfl, by decide⟩)⟩

end Shawk
